import Mathlib

/-!
Verification of the core update-decision and install state machine of the
cursor-appimage-installer scripts.  The definitions below are a shallow
embedding of the Python sources (install_cursor_appimage_v15.py, with the
v10/v14 variants where the claims cite them): bytes are naturals below 256,
files are optional byte lists, fallible code returns an explicit result
type, and the effectful steps of the installer are modelled by explicit
state passing plus an event trace.
-/

namespace CursorInstaller

/-- Result of a fallible operation.  Python code that calls err(...) ends
the whole process via sys.exit(1), modelled as exit 1; an uncaught OSError
or IOError propagating to the caller is modelled as ioError. -/
inductive Res (α : Type) where
  | ok (a : α) : Res α
  | ioError : Res α
  | exit (code : Nat) : Res α
deriving DecidableEq

/-! ### SHA-256 (semantics of hashlib.sha256, FIPS 180-4) -/

/-- Truncation to a 32-bit word. -/
def w32 (n : Nat) : Nat := n % 4294967296

/-- Rotate the 32-bit word n right by k positions. -/
def rotr (k n : Nat) : Nat := w32 ((n >>> k) ||| (n <<< (32 - k)))

def shaCh (x y z : Nat) : Nat := (x &&& y) ^^^ ((x ^^^ 4294967295) &&& z)

def shaMaj (x y z : Nat) : Nat := (x &&& y) ^^^ (x &&& z) ^^^ (y &&& z)

def bigSigma0 (x : Nat) : Nat := rotr 2 x ^^^ rotr 13 x ^^^ rotr 22 x

def bigSigma1 (x : Nat) : Nat := rotr 6 x ^^^ rotr 11 x ^^^ rotr 25 x

def smallSigma0 (x : Nat) : Nat := rotr 7 x ^^^ rotr 18 x ^^^ (x >>> 3)

def smallSigma1 (x : Nat) : Nat := rotr 17 x ^^^ rotr 19 x ^^^ (x >>> 10)

/-- The 64 SHA-256 round constants of FIPS 180-4, written in decimal. -/
def K256 : List Nat :=
  [1116352408, 1899447441, 3049323471, 3921009573, 961987163, 1508970993, 2453635748,
   2870763221, 3624381080, 310598401, 607225278, 1426881987, 1925078388, 2162078206,
   2614888103, 3248222580, 3835390401, 4022224774, 264347078, 604807628, 770255983,
   1249150122, 1555081692, 1996064986, 2554220882, 2821834349, 2952996808, 3210313671,
   3336571891, 3584528711, 113926993, 338241895, 666307205, 773529912, 1294757372,
   1396182291, 1695183700, 1986661051, 2177026350, 2456956037, 2730485921, 2820302411,
   3259730800, 3345764771, 3516065817, 3600352804, 4094571909, 275423344, 430227734,
   506948616, 659060556, 883997877, 958139571, 1322822218, 1537002063, 1747873779,
   1955562222, 2024104815, 2227730452, 2361852424, 2428436474, 2756734187, 3204031479,
   3329325298]

/-- The eight 32-bit working variables of the SHA-256 state. -/
structure Hash8 where
  a : Nat
  b : Nat
  c : Nat
  d : Nat
  e : Nat
  f : Nat
  g : Nat
  h : Nat
deriving DecidableEq

/-- SHA-256 initial hash value (decimal). -/
def initH256 : Hash8 :=
  ⟨1779033703, 3144134277, 1013904242, 2773480762, 1359893119, 2600822924, 528734635,
   1541459225⟩

/-- Big-endian grouping of bytes into 32-bit words. -/
def bytesToWords : List Nat → List Nat
  | b0 :: b1 :: b2 :: b3 :: rest =>
      w32 ((b0 <<< 24) ||| (b1 <<< 16) ||| (b2 <<< 8) ||| b3) :: bytesToWords rest
  | _ => []

/-- One extension step of the SHA-256 message schedule. -/
def scheduleStep (w : List Nat) : List Nat :=
  let t := w.length
  let g := fun i => w.getD i 0
  w ++ [w32 (smallSigma1 (g (t - 2)) + g (t - 7) + smallSigma0 (g (t - 15)) + g (t - 16))]

/-- Iterate a function n times. -/
def iterN (f : α → α) : Nat → α → α
  | 0, a => a
  | n + 1, a => iterN f n (f a)

/-- Extend the 16 block words to the 64 schedule words. -/
def buildSchedule (w16 : List Nat) : List Nat := iterN scheduleStep 48 w16

/-- One SHA-256 round; the pair kw is (round constant, schedule word). -/
def shaRound (s : Hash8) (kw : Nat × Nat) : Hash8 :=
  let t1 := w32 (s.h + bigSigma1 s.e + shaCh s.e s.f s.g + kw.1 + kw.2)
  let t2 := w32 (bigSigma0 s.a + shaMaj s.a s.b s.c)
  ⟨w32 (t1 + t2), s.a, s.b, s.c, w32 (s.d + t1), s.e, s.f, s.g⟩

/-- SHA-256 compression of one 64-byte block. -/
def compress (h0 : Hash8) (block : List Nat) : Hash8 :=
  let w := buildSchedule (bytesToWords block)
  let s := (K256.zip w).foldl shaRound h0
  ⟨w32 (h0.a + s.a), w32 (h0.b + s.b), w32 (h0.c + s.c), w32 (h0.d + s.d),
   w32 (h0.e + s.e), w32 (h0.f + s.f), w32 (h0.g + s.g), w32 (h0.h + s.h)⟩

/-- The eight big-endian bytes of the 64-bit message bit length. -/
def lenBytes (n : Nat) : List Nat :=
  [(n >>> 56) % 256, (n >>> 48) % 256, (n >>> 40) % 256, (n >>> 32) % 256,
   (n >>> 24) % 256, (n >>> 16) % 256, (n >>> 8) % 256, n % 256]

/-- SHA-256 padding: a 0x80 byte, zeros to 56 mod 64, then the bit length. -/
def padMessage (msg : List Nat) : List Nat :=
  let L := msg.length
  let z := (64 + 56 - ((L + 1) % 64)) % 64
  msg ++ [128] ++ List.replicate z 0 ++ lenBytes (8 * L)

/-- Split a list into chunks of size k (k positive); fuel-based so that it
reduces by kernel evaluation.  The fuel l.length suffices because every
step consumes at least one element. -/
def chunksOfAux (k : Nat) : Nat → List α → List (List α)
  | 0, _ => []
  | _, [] => []
  | fuel + 1, l => l.take k :: chunksOfAux k fuel (l.drop k)

/-- Split a list into chunks of size k. -/
def chunksOf (k : Nat) (l : List α) : List (List α) := chunksOfAux k l.length l

/-- The SHA-256 state after absorbing a whole message. -/
def sha256state (msg : List Nat) : Hash8 :=
  (chunksOf 64 (padMessage msg)).foldl compress initH256

/-- The lowercase hex digit for n below 16, computed from character
codes (48 is the code of the zero digit, 87 + 10 that of the letter a). -/
def hexDigit (n : Nat) : Char :=
  if n < 10 then Char.ofNat (48 + n) else Char.ofNat (87 + n)

/-- Fixed-width lowercase hex rendering (k digits). -/
def toHexFixed : Nat → Nat → List Char
  | 0, _ => []
  | k + 1, n => toHexFixed k (n / 16) ++ [hexDigit (n % 16)]

/-- hashlib.sha256(msg).hexdigest(): the 64-character lowercase hex digest. -/
def sha256hex (msg : List Nat) : String :=
  let s := sha256state msg
  String.mk (toHexFixed 8 s.a ++ toHexFixed 8 s.b ++ toHexFixed 8 s.c ++ toHexFixed 8 s.d ++
             toHexFixed 8 s.e ++ toHexFixed 8 s.f ++ toHexFixed 8 s.g ++ toHexFixed 8 s.h)

/-! ### Installer state model

The on-disk state touched by the installer (v15 paths): BIN_PATH is the
binary field, VERSION_FILE the versionFile field, INSTALL_DIR existence the
dirExists field, and the executable permission bit of the binary the
execBit field.  A file that exists and is readable is modelled as some
content; none means the file is absent. -/
structure FS where
  binary : Option (List Nat)
  versionFile : Option String
  dirExists : Bool
  execBit : Bool
deriving DecidableEq

/-- Which filesystem and desktop-integration steps succeed in a run; a
false field means that step raises and the surrounding handler turns it
into a fatal err (sys.exit 1). -/
structure InstallEnv where
  mkdirOk : Bool
  moveOk : Bool
  chmodOk : Bool
  writeOk : Bool
  desktopOk : Bool
deriving DecidableEq

/-- Observable events of one orchestrator run, used to state the temporal
and idempotence claims.  An event is recorded when the corresponding action
completes. -/
inductive Ev where
  | pkillEv : Ev
  | apiFetch : Ev
  | localDigest : Ev
  | fetchBinary : Ev
  | tempDigest : Ev
  | mkdirEv : Ev
  | moveEv : Ev
  | chmodEv : Ev
  | writeVersionEv : Ev
  | iconFetch : Ev
  | desktopEv : Ev
  | launchEv : Ev
deriving DecidableEq

/-- Python str.strip() (whitespace on both ends), as applied to the version
file content in is_update_needed. -/
def pyStrip (s : String) : String :=
  String.mk (((s.toList.dropWhile Char.isWhitespace).reverse.dropWhile Char.isWhitespace).reverse)

/-- sha256sum of v15 (lines 162-171): reads the file in 8192-byte chunks,
feeding each chunk to the hash object; on any exception (e.g. an unreadable
path) it catches the exception and calls err, i.e. the whole program exits
with code 1.  The hashlib update loop over chunks is the hash of the
concatenation of the chunks. -/
def sha256sum (file : Option (List Nat)) : Res String :=
  match file with
  | none => Res.exit 1
  | some content =>
      Res.ok (sha256hex ((chunksOf 8192 content).foldl (fun acc chunk => acc ++ chunk) []))

/-- sha256sum of v10 (lines 61-66): same chunked read, but with no
try/except, so an unreadable path raises IOError/OSError to the caller. -/
def sha256sum_v10 (file : Option (List Nat)) : Res String :=
  match file with
  | none => Res.ioError
  | some content =>
      Res.ok (sha256hex ((chunksOf 8192 content).foldl (fun acc chunk => acc ++ chunk) []))

/-- The JSON object served by the release-metadata endpoint; none models an
absent field.  Python treats a missing or empty downloadUrl identically
(both are falsy), which the getD "" below mirrors. -/
structure ApiResponse where
  downloadUrl : Option String
  version : Option String
  sha256 : Option String
deriving DecidableEq

/-- fetch_download_info of v15 (lines 135-160): err when downloadUrl is
missing (or empty, Python falsiness); version defaults to the sentinel
"unknown" when the key is absent; the third component of the returned
triple is the literal None of line 155 -- v15 never reads a digest out of
the response. -/
def fetch_download_info (resp : ApiResponse) : Res (String × String × Option String) :=
  let dl := resp.downloadUrl.getD ""
  let ver := resp.version.getD "unknown"
  if dl = "" then Res.exit 1 else Res.ok (dl, ver, none)

/-- fetch_download_info of v14 (lines 62-75): version defaults via Python
or-falsiness ("" also becomes "unknown"), and the sha256 field of the
response is returned as the expected digest. -/
def fetch_download_info_v14 (resp : ApiResponse) : Res (String × String × Option String) :=
  let dl := resp.downloadUrl.getD ""
  let ver := if resp.version.getD "" = "" then "unknown" else resp.version.getD ""
  if dl = "" then Res.exit 1 else Res.ok (dl, ver, resp.sha256)

/-- The retry loop of download_with_progress (v15 lines 176-206), with the
body of one attempt abstracted to the env oracle (env i = true means the
i-th attempt streams to completion without an exception).  Returns the
Python return value together with the number of attempts performed.
Recursion is on the remaining fuel (retries - attempt + 1); when the for
loop ends without returning, the final return False of line 206 fires. -/
def dwpGo (fatal : Bool) (env : Nat → Bool) (retries : Nat) : Nat → Nat → Res Bool × Nat
  | _, 0 => (Res.ok false, 0)
  | attempt, fuel + 1 =>
      if env attempt then (Res.ok true, 1)
      else if attempt = retries then
        (if fatal then (Res.exit 1, 1) else (Res.ok false, 1))
      else
        let r := dwpGo fatal env retries (attempt + 1) fuel
        (r.1, r.2 + 1)

/-- download_with_progress: attempts run for attempt in 1..retries. -/
def download_with_progress (fatal : Bool) (retries : Nat) (env : Nat → Bool) : Res Bool × Nat :=
  dwpGo fatal env retries 1 retries

/-- A progress report printed during streaming.  The source only ever
prints percentages; the raw constructor is vocabulary for stating the
spec claim that raw byte counts are reported when no total is known. -/
inductive Report where
  | percent (p : Nat) : Report
  | raw (n : Nat) : Report
deriving DecidableEq

/-- The chunk-streaming loop inside one download attempt (v15 lines
183-195): empty chunks are skipped, the downloaded counter grows by the
chunk length, and a percentage is printed only when the server advertised
a positive content-length.  Returns the successive values of the
downloaded counter and the list of printed reports. -/
def downloadChunkLoop (total : Nat) : List (List Nat) → Nat → List Nat × List Report
  | [], _ => ([], [])
  | c :: cs, downloaded =>
      if c.length = 0 then downloadChunkLoop total cs downloaded
      else
        let d := downloaded + c.length
        let rest := downloadChunkLoop total cs d
        (d :: rest.1, if 0 < total then Report.percent (d * 100 / total) :: rest.2 else rest.2)

/-- The digest branch of is_update_needed (v15 lines 219-227): reached when
the version-label fast path did not hit.  Computes the local binary digest
only when an expected digest was supplied; on a match it backfills the
version file and reports up to date. -/
def checkDigest (st : FS) (content : List Nat) (latest : String) (expected : Option String) :
    Bool × FS × List Ev :=
  match expected with
  | some e =>
      if sha256hex content = e then
        (false, { st with versionFile := some latest }, [Ev.localDigest])
      else (true, st, [Ev.localDigest])
  | none => (true, st, [])

/-- is_update_needed of v15 (lines 208-227): no binary means update needed;
then the persisted version label (stripped) is compared against the
resolved label; then the digest branch decides. -/
def is_update_needed (st : FS) (latest : String) (expected : Option String) :
    Bool × FS × List Ev :=
  match st.binary with
  | none => (true, st, [])
  | some content =>
      match st.versionFile with
      | some cur =>
          if pyStrip cur = latest then (false, st, [])
          else checkDigest st content latest expected
      | none => checkDigest st content latest expected

/-- The filesystem tail of download_and_install (v15 lines 259-267): mkdir,
move of the verified temp file onto BIN_PATH, chmod 0o755, then the
version-label write; a failing step raises, is caught, and turns into err
(exit 1), leaving the later steps unexecuted. -/
def installFiles (env : InstallEnv) (st : FS) (bytes : List Nat) (version : String)
    (tr : List Ev) : Res Unit × FS × List Ev :=
  if env.mkdirOk then
    let st1 := { st with dirExists := true }
    if env.moveOk then
      let st2 := { st1 with binary := some bytes }
      if env.chmodOk then
        let st3 := { st2 with execBit := true }
        if env.writeOk then
          (Res.ok (), { st3 with versionFile := some version },
           tr ++ [Ev.mkdirEv, Ev.moveEv, Ev.chmodEv, Ev.writeVersionEv])
        else (Res.exit 1, st3, tr ++ [Ev.mkdirEv, Ev.moveEv, Ev.chmodEv])
      else (Res.exit 1, st2, tr ++ [Ev.mkdirEv, Ev.moveEv])
    else (Res.exit 1, st1, tr ++ [Ev.mkdirEv])
  else (Res.exit 1, st, tr)

/-- download_and_install of v15 (lines 242-267).  The fetch argument is the
byte stream the network yields into the temp file: none models a download
where every retry fails (download_with_progress is called with fatal=True
here, so exhaustion already exits).  The temp file digest of line 253 is
always computed; a supplied expected digest that mismatches aborts before
any step of installFiles runs. -/
def download_and_install (env : InstallEnv) (st : FS) (fetch : Option (List Nat))
    (version : String) (expected : Option String) : Res Unit × FS × List Ev :=
  match fetch with
  | none => (Res.exit 1, st, [Ev.fetchBinary])
  | some bytes =>
      let fileHash := sha256hex bytes
      match expected with
      | some e =>
          if fileHash = e then installFiles env st bytes version [Ev.fetchBinary, Ev.tempDigest]
          else (Res.exit 1, st, [Ev.fetchBinary, Ev.tempDigest])
      | none => installFiles env st bytes version [Ev.fetchBinary, Ev.tempDigest]

/-- A process as seen by the process guard: the owning user, whether its
command line matches BIN_PATH, whether it matches the bare pattern
"cursor", and whether it dies on SIGTERM (pkill) or SIGKILL (kill -9). -/
structure Proc where
  user : String
  cmdMatchesBin : Bool
  cmdMatchesCursor : Bool
  diesOnTerm : Bool
  diesOnKill : Bool
deriving DecidableEq

/-- close_other_instances of v15 (lines 229-240): one pkill scoped to the
invoking user and matching BIN_PATH, a fixed sleep, and nothing else --
no re-check, no escalation, no abort; any failure is only warned about.
Returns the surviving processes. -/
def close_other_instances (login : String) (ps : List Proc) : Res Unit × List Proc :=
  (Res.ok (), ps.filter (fun p => !(p.user == login && p.cmdMatchesBin && p.diesOnTerm)))

/-- pkill -f BIN_PATH (no user scoping) of v10. -/
def pkillBin (ps : List Proc) : List Proc :=
  ps.filter (fun p => !(p.cmdMatchesBin && p.diesOnTerm))

/-- pkill -f cursor (no user scoping) of v10. -/
def pkillCursor (ps : List Proc) : List Proc :=
  ps.filter (fun p => !(p.cmdMatchesCursor && p.diesOnTerm))

/-- pgrep -f cursor of v10. -/
def pgrepCursor (ps : List Proc) : List Proc :=
  ps.filter (fun p => p.cmdMatchesCursor)

/-- The graceful retry loop of v10 close_other_instances (lines 106-122):
each iteration pkills by path and by name, then checks for survivors with
pgrep; true means the loop observed no survivor and returned early. -/
def graceLoop : Nat → List Proc → Bool × List Proc
  | 0, ps => (false, ps)
  | n + 1, ps =>
      let ps1 := pkillCursor (pkillBin ps)
      if (pgrepCursor ps1).isEmpty then (true, ps1)
      else graceLoop n ps1

/-- kill -9 on each pid listed by pgrep -f cursor (v10 lines 124-130). -/
def forceKill (ps : List Proc) : List Proc :=
  ps.filter (fun p => !(p.cmdMatchesCursor && p.diesOnKill))

/-- close_other_instances of v10 (lines 103-135): three graceful rounds,
then forceful kill of the remaining matches, then a final pgrep check that
errs (exit 1) when any match survives. -/
def close_other_instances_v10 (ps : List Proc) : Res Unit × List Proc :=
  match graceLoop 3 ps with
  | (true, ps1) => (Res.ok (), ps1)
  | (false, ps1) =>
      let ps2 := forceKill ps1
      if (pgrepCursor ps2).isEmpty then (Res.ok (), ps2) else (Res.exit 1, ps2)

/-- The body of main (v15 lines 362-376) after the resolver succeeded:
decide, then either launch directly or download-and-install followed by
icon download, desktop entry (which can err) and launch. -/
def afterResolve (env : InstallEnv) (info : String × String × Option String)
    (fetch : Option (List Nat)) (st : FS) : Res Unit × FS × List Ev :=
  let dec := is_update_needed st info.2.1 info.2.2
  if dec.1 then
    let inst := download_and_install env dec.2.1 fetch info.2.1 info.2.2
    match inst.1 with
    | Res.ok _ =>
        if env.desktopOk then
          (Res.ok (), inst.2.1,
           Ev.pkillEv :: Ev.apiFetch ::
             (dec.2.2 ++ inst.2.2 ++ [Ev.iconFetch, Ev.desktopEv, Ev.launchEv]))
        else
          (Res.exit 1, inst.2.1,
           Ev.pkillEv :: Ev.apiFetch :: (dec.2.2 ++ inst.2.2 ++ [Ev.iconFetch]))
    | e => (e, inst.2.1, Ev.pkillEv :: Ev.apiFetch :: (dec.2.2 ++ inst.2.2))
  else (Res.ok (), dec.2.1, Ev.pkillEv :: Ev.apiFetch :: (dec.2.2 ++ [Ev.launchEv]))

/-- One orchestrator run of v15 main (lines 347-376), restricted to the
core state machine: system checks, dependency install and the GPU profile
edit are outside the modelled state; close_other_instances always returns
success (see its definition) and is recorded as the pkill event; a failed
resolution aborts before any decision is taken. -/
def mainRun (env : InstallEnv) (resp : ApiResponse) (fetch : Option (List Nat)) (st : FS) :
    Res Unit × FS × List Ev :=
  match fetch_download_info resp with
  | Res.ok info => afterResolve env info fetch st
  | Res.ioError => (Res.ioError, st, [Ev.pkillEv, Ev.apiFetch])
  | Res.exit c => (Res.exit c, st, [Ev.pkillEv, Ev.apiFetch])

end CursorInstaller

namespace CursorInstaller

theorem toHexFixed_length (k : Nat) : ∀ n, (toHexFixed k n).length = k := by
  induction k with
  | zero => intro n; rfl
  | succ k ih => intro n; simp [toHexFixed, ih]

theorem length_mk (l : List Char) : (String.mk l).length = l.length := rfl

/-- The hex digest always has exactly 64 characters. -/
theorem sha256hex_length (m : List Nat) : (sha256hex m).length = 64 := by
  simp [sha256hex, length_mk, List.length_append, toHexFixed_length]

theorem chunksOfAux_flatten (k : Nat) (hk : 0 < k) :
    ∀ (fuel : Nat) (l : List α), l.length ≤ fuel → (chunksOfAux k fuel l).flatten = l := by
  intro fuel
  induction fuel with
  | zero =>
      intro l hl
      have : l = [] := List.eq_nil_of_length_eq_zero (Nat.le_zero.mp hl)
      subst this; rfl
  | succ fuel ih =>
      intro l hl
      cases l with
      | nil => rfl
      | cons x xs =>
          simp only [chunksOfAux, List.flatten]
          rw [ih ((x :: xs).drop k) ?_]
          · exact List.take_append_drop k (x :: xs)
          · rw [List.length_drop]
            simp only [List.length_cons] at hl ⊢
            omega

/-- Joining the chunks recovers the whole list: reading chunkwise reads the
file fully. -/
theorem chunksOf_flatten (k : Nat) (hk : 0 < k) (l : List α) : (chunksOf k l).flatten = l :=
  chunksOfAux_flatten k hk l.length l (Nat.le_refl _)

theorem chunksOfAux_length_le (k : Nat) :
    ∀ (fuel : Nat) (l : List α) (c : List α), c ∈ chunksOfAux k fuel l → c.length ≤ k := by
  intro fuel
  induction fuel with
  | zero => intro l c hc; exact absurd hc (by simp [chunksOfAux])
  | succ fuel ih =>
      intro l c hc
      cases l with
      | nil => exact absurd hc (by simp [chunksOfAux])
      | cons x xs =>
          simp only [chunksOfAux, List.mem_cons] at hc
          rcases hc with h | h
          · subst h
            simp
          · exact ih _ _ h

/-- Every chunk is bounded by the chunk size. -/
theorem chunksOf_length_le (k : Nat) (l : List α) (c : List α) (hc : c ∈ chunksOf k l) :
    c.length ≤ k :=
  chunksOfAux_length_le k l.length l c hc

/-- C1: the update decision (is_update_needed, v15) implements the spec's
decision table: no installed binary means update needed; otherwise a
persisted version label equal (after stripping) to the resolved label
means up to date; otherwise, with an expected digest supplied, up to date
exactly when the local binary's digest equals it (backfilling the version
file on the match); otherwise update needed. -/
theorem c1_update_decision (st : FS) (latest : String) (expected : Option String) :
    (st.binary = none → is_update_needed st latest expected = (true, st, [])) ∧
    (∀ w, st.binary ≠ none → st.versionFile = some w → pyStrip w = latest →
        is_update_needed st latest expected = (false, st, [])) ∧
    (∀ c e, st.binary = some c → (∀ w, st.versionFile = some w → pyStrip w ≠ latest) →
        expected = some e →
        is_update_needed st latest expected =
          (if sha256hex c = e then
            (false, { st with versionFile := some latest }, [Ev.localDigest])
           else (true, st, [Ev.localDigest]))) ∧
    (st.binary ≠ none → (∀ w, st.versionFile = some w → pyStrip w ≠ latest) →
        expected = none → is_update_needed st latest expected = (true, st, [])) := by
  obtain ⟨bin, vf, de, xb⟩ := st
  refine ⟨?_, ?_, ?_, ?_⟩
  · intro h
    simp only at h
    subst h
    rfl
  · intro w hb hv ht
    simp only at hv
    subst hv
    cases bin with
    | none => exact absurd rfl hb
    | some c => simp [is_update_needed, ht]
  · intro c e hb hw he
    simp only at hb
    subst hb he
    cases vf with
    | none => rfl
    | some w => simp [is_update_needed, hw w rfl, checkDigest]
  · intro hb hw he
    subst he
    cases bin with
    | none => exact absurd rfl hb
    | some c =>
        cases vf with
        | none => rfl
        | some w => simp [is_update_needed, hw w rfl, checkDigest]

/-- C1 witness: a concrete state on the digest-match path. -/
theorem c1_update_decision_witness :
    is_update_needed ⟨some [], none, false, false⟩ "1.0.0" (some (sha256hex [])) =
      (false, ⟨some [], some "1.0.0", false, false⟩, [Ev.localDigest]) := by
  have h := (c1_update_decision ⟨some [], none, false, false⟩ "1.0.0"
      (some (sha256hex []))).2.2.1 [] (sha256hex []) rfl (fun w hw => by cases hw) rfl
  rw [if_pos rfl] at h
  exact h

/-- C10: the decision step mutates no installed state on any path where it
returns update needed; its only possible mutation is the version-label
backfill, which happens on an up-to-date verdict. -/
theorem c10_decision_frame (st : FS) (latest : String) (expected : Option String) :
    ((is_update_needed st latest expected).1 = true →
        (is_update_needed st latest expected).2.1 = st) ∧
    ((is_update_needed st latest expected).2.1 ≠ st →
        (is_update_needed st latest expected).1 = false ∧
        (is_update_needed st latest expected).2.1 =
          { st with versionFile := some latest }) := by
  obtain ⟨bin, vf, de, xb⟩ := st
  cases bin with
  | none => exact ⟨fun _ => rfl, fun h => absurd rfl h⟩
  | some c =>
      cases vf with
      | none =>
          cases expected with
          | none => exact ⟨fun _ => rfl, fun h => absurd rfl h⟩
          | some e =>
              by_cases hd : sha256hex c = e
              · simp [is_update_needed, checkDigest, hd]
              · simp [is_update_needed, checkDigest, hd]
      | some w =>
          by_cases ht : pyStrip w = latest
          · simp [is_update_needed, ht]
          · cases expected with
            | none => simp [is_update_needed, checkDigest, ht]
            | some e =>
                by_cases hd : sha256hex c = e
                · simp [is_update_needed, checkDigest, ht, hd]
                · simp [is_update_needed, checkDigest, ht, hd]

/-- C10 witness: the no-binary path returns update needed and leaves the
state untouched. -/
theorem c10_decision_frame_witness :
    (is_update_needed ⟨none, some "1.0.0", true, true⟩ "2.0.0" none).2.1 =
      ⟨none, some "1.0.0", true, true⟩ :=
  (c10_decision_frame ⟨none, some "1.0.0", true, true⟩ "2.0.0" none).1 rfl

/-- C2: when an expected digest is supplied and the fetched temp file's
digest differs, download_and_install aborts fatally (exit 1) and the whole
on-disk state -- in particular the file at the final binary path and the
version-label file -- is exactly its pre-run state. -/
theorem c2_mismatch_aborts (env : InstallEnv) (st : FS) (bytes : List Nat)
    (version e : String) (hne : sha256hex bytes ≠ e) :
    download_and_install env st (some bytes) version (some e) =
      (Res.exit 1, st, [Ev.fetchBinary, Ev.tempDigest]) := by
  simp [download_and_install, hne]

/-- C2 witness: a pre-existing install survives a mismatching download
untouched (the mismatch is forced via the digest length). -/
theorem c2_mismatch_aborts_witness :
    download_and_install ⟨true, true, true, true, true⟩ ⟨some [7], some "0.9", true, true⟩
        (some []) "1.0" (some "xyz") =
      (Res.exit 1, ⟨some [7], some "0.9", true, true⟩, [Ev.fetchBinary, Ev.tempDigest]) :=
  c2_mismatch_aborts _ _ _ _ _ (fun h => by
    have h2 := congrArg String.length h
    rw [sha256hex_length] at h2
    exact absurd h2 (by decide))

/-- C3: in every execution of download_and_install, the version-label write
happens only after the move into the final binary path succeeded: a run
whose trace contains the version write performed the full ordered sequence
(move strictly before write), and any run that changed the version file
performed both the move and the write. -/
theorem c3_record_after_swap (env : InstallEnv) (st : FS) (fetch : Option (List Nat))
    (version : String) (expected : Option String) :
    (Ev.writeVersionEv ∈ (download_and_install env st fetch version expected).2.2 →
        (download_and_install env st fetch version expected).2.2 =
          [Ev.fetchBinary, Ev.tempDigest, Ev.mkdirEv, Ev.moveEv, Ev.chmodEv,
           Ev.writeVersionEv]) ∧
    ((download_and_install env st fetch version expected).2.1.versionFile ≠ st.versionFile →
        Ev.moveEv ∈ (download_and_install env st fetch version expected).2.2 ∧
        Ev.writeVersionEv ∈ (download_and_install env st fetch version expected).2.2) := by
  obtain ⟨mk, mv, ch, wr, dk⟩ := env
  cases fetch with
  | none => exact ⟨fun h => by simp [download_and_install] at h, fun h => absurd rfl h⟩
  | some bytes =>
      cases expected with
      | none =>
          cases mk <;> cases mv <;> cases ch <;> cases wr <;>
            simp [download_and_install, installFiles]
      | some e =>
          by_cases hd : sha256hex bytes = e
          · cases mk <;> cases mv <;> cases ch <;> cases wr <;>
              simp [download_and_install, installFiles, hd]
          · simp [download_and_install, hd]

/-- C3 witness: a fully successful install run shows the ordered trace. -/
theorem c3_record_after_swap_witness :
    (download_and_install ⟨true, true, true, true, true⟩ ⟨none, none, false, false⟩
        (some []) "1.0" none).2.2 =
      [Ev.fetchBinary, Ev.tempDigest, Ev.mkdirEv, Ev.moveEv, Ev.chmodEv, Ev.writeVersionEv] :=
  (c3_record_after_swap _ _ _ _ _).1 (by decide)

theorem dwpGo_allFail (fatal : Bool) (env : Nat → Bool) (retries : Nat)
    (hfail : ∀ i, env i = false) :
    ∀ (fuel attempt : Nat), 1 ≤ fuel → attempt + fuel = retries + 1 →
      dwpGo fatal env retries attempt fuel =
        ((if fatal then Res.exit 1 else Res.ok false), fuel) := by
  intro fuel
  induction fuel with
  | zero => intro attempt h1 _; omega
  | succ fuel ih =>
      intro attempt h1 hsum
      cases fuel with
      | zero =>
          have heq : attempt = retries := by omega
          subst heq
          cases fatal <;> simp [dwpGo, hfail]
      | succ fuel' =>
          have hne : attempt ≠ retries := by omega
          have hrec := ih (attempt + 1) (by omega) (by omega)
          have step : dwpGo fatal env retries attempt (fuel' + 1 + 1) =
              (if env attempt then (Res.ok true, 1)
               else if attempt = retries then
                 (if fatal then (Res.exit 1, 1) else (Res.ok false, 1))
               else ((dwpGo fatal env retries (attempt + 1) (fuel' + 1)).1,
                     (dwpGo fatal env retries (attempt + 1) (fuel' + 1)).2 + 1)) := rfl
          rw [step, hrec]
          simp [hfail, hne]

/-- C5: for every N at least 1, a fetch configured with N attempts against
an always-failing locator performs exactly N attempts; after the N-th
failure a fatal fetch aborts the program (exit 1) and a non-fatal fetch
returns failure (False) to the caller. -/
theorem c5_retry_bound (N : Nat) (fatal : Bool) (env : Nat → Bool)
    (hN : 1 ≤ N) (hfail : ∀ i, env i = false) :
    download_with_progress fatal N env =
      ((if fatal then Res.exit 1 else Res.ok false), N) := by
  have h := dwpGo_allFail fatal env N hfail N 1 hN (by omega)
  simpa [download_with_progress] using h

/-- C5 witness: three fatal attempts against a dead locator. -/
theorem c5_retry_bound_witness :
    download_with_progress true 3 (fun _ => false) = (Res.exit 1, 3) := by
  have h := c5_retry_bound 3 true (fun _ => false) (by omega) (fun i => rfl)
  simpa using h

theorem downloadChunkLoop_chain (total : Nat) (chunks : List (List Nat)) :
    ∀ d0, List.Chain' (· ≤ ·) (d0 :: (downloadChunkLoop total chunks d0).1) := by
  induction chunks with
  | nil => intro d0; simp [downloadChunkLoop]
  | cons c cs ih =>
      intro d0
      by_cases hc : c.length = 0
      · simpa [downloadChunkLoop, hc] using ih d0
      · have h2 := ih (d0 + c.length)
        simp only [downloadChunkLoop, hc, if_false]
        exact List.chain'_cons.mpr ⟨Nat.le_add_right _ _, h2⟩

theorem downloadChunkLoop_reports_percent (total : Nat) (ht : 0 < total)
    (chunks : List (List Nat)) :
    ∀ d0, (downloadChunkLoop total chunks d0).2 =
      (downloadChunkLoop total chunks d0).1.map (fun d => Report.percent (d * 100 / total)) := by
  induction chunks with
  | nil => intro d0; rfl
  | cons c cs ih =>
      intro d0
      by_cases hc : c.length = 0
      · simpa [downloadChunkLoop, hc] using ih d0
      · simp [downloadChunkLoop, hc, ht, ih (d0 + c.length)]

theorem downloadChunkLoop_reports_none (chunks : List (List Nat)) :
    ∀ d0, (downloadChunkLoop 0 chunks d0).2 = [] := by
  induction chunks with
  | nil => intro d0; rfl
  | cons c cs ih =>
      intro d0
      by_cases hc : c.length = 0
      · simpa [downloadChunkLoop, hc] using ih d0
      · simp [downloadChunkLoop, hc, ih (d0 + c.length)]

/-- C8 counterexample: with no advertised total, a chunk of one byte is
downloaded (the counter reaches 1) yet the loop emits no report at all --
in particular no raw-byte report, contrary to the claim. -/
theorem c8_no_report_without_total :
    (downloadChunkLoop 0 [[7]] 0).1 = [1] ∧ (downloadChunkLoop 0 [[7]] 0).2 = [] := by
  decide

/-- C8 amended: the downloaded counter is monotonically non-decreasing
across chunks; when the server advertises a positive total every report is
the derived percentage (itself non-decreasing); when no total is
advertised, nothing is reported. -/
theorem c8_progress_monotone (total : Nat) (chunks : List (List Nat)) (d0 : Nat) :
    List.Chain' (· ≤ ·) (d0 :: (downloadChunkLoop total chunks d0).1) ∧
    (0 < total →
        (downloadChunkLoop total chunks d0).2 =
          (downloadChunkLoop total chunks d0).1.map
            (fun d => Report.percent (d * 100 / total))) ∧
    (0 < total →
        List.Chain' (· ≤ ·)
          ((downloadChunkLoop total chunks d0).1.map (fun d => d * 100 / total))) ∧
    (total = 0 → (downloadChunkLoop total chunks d0).2 = []) := by
  refine ⟨downloadChunkLoop_chain total chunks d0,
          fun ht => downloadChunkLoop_reports_percent total ht chunks d0,
          fun ht => ?_, fun h0 => by subst h0; exact downloadChunkLoop_reports_none chunks d0⟩
  have hch := (List.chain'_cons'.mp (downloadChunkLoop_chain total chunks d0)).2
  exact List.chain'_map_of_chain' _ (fun a b hab =>
    Nat.div_le_div_right (Nat.mul_le_mul_right _ hab)) hch

/-- C8 witness: two chunks with a known total yield percentage reports. -/
theorem c8_progress_monotone_witness :
    (downloadChunkLoop 100 [[5], [6]] 0).2 =
      (downloadChunkLoop 100 [[5], [6]] 0).1.map (fun d => Report.percent (d * 100 / 100)) :=
  (c8_progress_monotone 100 [[5], [6]] 0).2.1 (by decide)

theorem pgrep_after_grace (ps : List Proc) :
    pgrepCursor (pkillCursor (pkillBin ps)) =
      ps.filter (fun p => p.cmdMatchesCursor && !p.diesOnTerm) := by
  induction ps with
  | nil => rfl
  | cons p ps ih =>
      obtain ⟨u, cb, cc, dt, dk⟩ := p
      cases cb <;> cases cc <;> cases dt <;>
        simp_all [pgrepCursor, pkillCursor, pkillBin]

theorem grace_idem (ps : List Proc) :
    pkillCursor (pkillBin (pkillCursor (pkillBin ps))) = pkillCursor (pkillBin ps) := by
  induction ps with
  | nil => rfl
  | cons p ps ih =>
      obtain ⟨u, cb, cc, dt, dk⟩ := p
      cases cb <;> cases cc <;> cases dt <;> simp_all [pkillCursor, pkillBin]

theorem pgrep_after_force (ps : List Proc) :
    pgrepCursor (forceKill (pkillCursor (pkillBin ps))) =
      ps.filter (fun p => p.cmdMatchesCursor && !p.diesOnTerm && !p.diesOnKill) := by
  induction ps with
  | nil => rfl
  | cons p ps ih =>
      obtain ⟨u, cb, cc, dt, dk⟩ := p
      cases cb <;> cases cc <;> cases dt <;> cases dk <;>
        simp_all [pgrepCursor, forceKill, pkillCursor, pkillBin]

theorem graceLoop3_eq (ps : List Proc) :
    graceLoop 3 ps =
      (if (pgrepCursor (pkillCursor (pkillBin ps))).isEmpty then
        (true, pkillCursor (pkillBin ps))
       else (false, pkillCursor (pkillBin ps))) := by
  by_cases h : (pgrepCursor (pkillCursor (pkillBin ps))).isEmpty
  · simp [graceLoop, h]
  · simp [graceLoop, h, grace_idem]

theorem filter_isEmpty_eq_not_any (f : Proc → Bool) (ps : List Proc) :
    (ps.filter f).isEmpty = !(ps.any f) := by
  induction ps with
  | nil => rfl
  | cons p ps ih => cases hf : f p <;> simp_all [List.filter_cons]

theorem any_survivor_mono (ps : List Proc)
    (h : ps.any (fun p => p.cmdMatchesCursor && !p.diesOnTerm && !p.diesOnKill) = true) :
    ps.any (fun p => p.cmdMatchesCursor && !p.diesOnTerm) = true := by
  simp only [List.any_eq_true] at h ⊢
  obtain ⟨p, hp, hb⟩ := h
  refine ⟨p, hp, ?_⟩
  revert hb
  cases p.cmdMatchesCursor <;> cases p.diesOnTerm <;> cases p.diesOnKill <;> simp

theorem close_v10_exit_iff (ps : List Proc) :
    (close_other_instances_v10 ps).1 =
      (if ps.any (fun p => p.cmdMatchesCursor && !p.diesOnTerm && !p.diesOnKill) then
        Res.exit 1
       else Res.ok ()) := by
  have hforce := pgrep_after_force ps
  have hgrace := pgrep_after_grace ps
  unfold close_other_instances_v10
  rw [graceLoop3_eq]
  by_cases h : (pgrepCursor (pkillCursor (pkillBin ps))).isEmpty
  · have hb : ps.any (fun p => p.cmdMatchesCursor && !p.diesOnTerm && !p.diesOnKill) = false := by
      rw [hgrace, filter_isEmpty_eq_not_any] at h
      by_contra hc
      simp only [Bool.not_eq_false] at hc
      have h1 := any_survivor_mono ps hc
      rw [h1] at h
      simp at h
    simp [h, hb]
  · by_cases h2 : ps.any (fun p => p.cmdMatchesCursor && !p.diesOnTerm && !p.diesOnKill)
    · simp [h, hforce, filter_isEmpty_eq_not_any, h2]
    · simp [h, hforce, filter_isEmpty_eq_not_any, h2]

/-- C6 counterexample: a process of the invoking user matching BIN_PATH
that ignores SIGTERM.  v15's close_other_instances (the cited guard)
reports success while the process survives: there is no re-check, no
forceful escalation and no fatal abort, so the run proceeds to install
over the still-running instance, contrary to the claim. -/
theorem c6_guard_no_escalation_cex :
    close_other_instances "u" [⟨"u", true, true, false, false⟩] =
      (Res.ok (), [⟨"u", true, true, false, false⟩]) := by
  decide

/-- C6 amended: v15's guard only sends one user-scoped graceful signal and
always reports success, never escalating or aborting.  The escalation
algorithm with a fatal final re-check lives in v10's guard: it exits
fatally exactly when some process matching the (system-wide, not
user-scoped) pattern survives both the graceful rounds and the forceful
kill, and treats the no-matching-process case as success. -/
theorem c6_guard_escalation (ps : List Proc) (login : String) :
    ((close_other_instances_v10 ps).1 =
        if ps.any (fun p => p.cmdMatchesCursor && !p.diesOnTerm && !p.diesOnKill) then
          Res.exit 1
        else Res.ok ()) ∧
    (close_other_instances login ps).1 = Res.ok () :=
  ⟨close_v10_exit_iff ps, rfl⟩

/-- C7 counterexample: a metadata response carrying a sha256 field.  v15's
resolver does not return it: the digest component of the result is the
literal None, not the response's digest. -/
theorem c7_resolver_digest_cex :
    fetch_download_info ⟨some "u", some "1.0", some "abc"⟩ ≠
      Res.ok ("u", "1.0", some "abc") := by
  decide

/-- C7 amended: v15's resolver fails fatally when the download locator is
absent, defaults the version label to the sentinel "unknown" when absent,
and always returns no expected digest, ignoring the response's digest
field; the v14 resolver is the one that passes the sha256 field through. -/
theorem c7_resolver_extraction (resp : ApiResponse) :
    (resp.downloadUrl = none → fetch_download_info resp = Res.exit 1) ∧
    (∀ u, resp.downloadUrl = some u → u ≠ "" →
        fetch_download_info resp = Res.ok (u, resp.version.getD "unknown", none)) ∧
    (∀ u, resp.downloadUrl = some u → u ≠ "" → resp.version = none →
        fetch_download_info resp = Res.ok (u, "unknown", none)) ∧
    (∀ u, resp.downloadUrl = some u → u ≠ "" →
        ∃ v, fetch_download_info_v14 resp = Res.ok (u, v, resp.sha256)) := by
  refine ⟨?_, ?_, ?_, ?_⟩
  · intro h
    simp [fetch_download_info, h]
  · intro u hd hu
    simp [fetch_download_info, hd, hu]
  · intro u hd hu hv
    simp [fetch_download_info, hd, hu, hv]
  · intro u hd hu
    exact ⟨if resp.version.getD "" = "" then "unknown" else resp.version.getD "",
      by simp [fetch_download_info_v14, hd, hu]⟩

/-- C7 witness: a response with no version and a digest resolves to the
sentinel label and no digest under v15. -/
theorem c7_resolver_extraction_witness :
    fetch_download_info ⟨some "u", none, some "abc"⟩ = Res.ok ("u", "unknown", none) :=
  (c7_resolver_extraction ⟨some "u", none, some "abc"⟩).2.2.1 "u" rfl (by decide) rfl

theorem foldl_append_eq (l : List (List Nat)) :
    ∀ acc : List Nat, l.foldl (fun a b => a ++ b) acc = acc ++ l.flatten := by
  induction l with
  | nil => intro acc; simp
  | cons x xs ih => intro acc; simp [List.foldl_cons, ih, List.append_assoc]

/-- C9 counterexample: an unreadable path.  v15's sha256sum catches the
exception and calls err, so the whole program exits with code 1; the
caller never observes an IOError. -/
theorem c9_digest_ioerror_cex :
    sha256sum none = Res.exit 1 ∧ sha256sum none ≠ Res.ioError := by
  decide

/-- C9 amended: sha256sum reads the file fully in chunks bounded by 8192
bytes and returns the deterministic 64-character digest of the content;
for an unreadable path, the v15 version aborts the whole program (exit 1)
instead of surfacing an IOError to the caller -- the v10 version is the
one that lets the IOError propagate. -/
theorem c9_digest_contract (file : Option (List Nat)) :
    (file = none → sha256sum file = Res.exit 1 ∧ sha256sum_v10 file = Res.ioError) ∧
    (∀ c, file = some c →
        sha256sum file = Res.ok (sha256hex c) ∧
        (∀ chunk, chunk ∈ chunksOf 8192 c → chunk.length ≤ 8192) ∧
        (sha256hex c).length = 64) := by
  constructor
  · intro h
    subst h
    exact ⟨rfl, rfl⟩
  · intro c h
    subst h
    refine ⟨?_, fun chunk hc => chunksOf_length_le 8192 c chunk hc, sha256hex_length c⟩
    show Res.ok (sha256hex ((chunksOf 8192 c).foldl (fun a b => a ++ b) [])) =
      Res.ok (sha256hex c)
    rw [foldl_append_eq, List.nil_append, chunksOf_flatten 8192 (by omega) c]

/-- C9 witness: a concrete readable file digests to the hash of its
content. -/
theorem c9_digest_contract_witness :
    sha256sum (some [1, 2]) = Res.ok (sha256hex [1, 2]) :=
  ((c9_digest_contract (some [1, 2])).2 [1, 2] rfl).1

theorem fetch_info_ok_inv (resp : ApiResponse) (u v : String) (d : Option String)
    (h : fetch_download_info resp = Res.ok (u, v, d)) :
    v = resp.version.getD "unknown" ∧ d = none := by
  unfold fetch_download_info at h
  by_cases hd : resp.downloadUrl.getD "" = ""
  · rw [if_pos hd] at h
    cases h
  · rw [if_neg hd] at h
    simp only [Res.ok.injEq, Prod.mk.injEq] at h
    exact ⟨h.2.1.symm, h.2.2.symm⟩

theorem is_update_needed_hit (st : FS) (v : String) (expected : Option String)
    (c : List Nat) (w : String) (hb : st.binary = some c) (hw : st.versionFile = some w)
    (ht : pyStrip w = v) :
    is_update_needed st v expected = (false, st, []) := by
  simp [is_update_needed, hb, hw, ht]

theorem is_update_needed_false_nodigest (st : FS) (v : String)
    (h : (is_update_needed st v none).1 = false) :
    (is_update_needed st v none).2.1 = st ∧
    ∃ c w, st.binary = some c ∧ st.versionFile = some w ∧ pyStrip w = v := by
  cases hb : st.binary with
  | none =>
      rw [show is_update_needed st v none = (true, st, []) from by
        simp [is_update_needed, hb]] at h
      simp at h
  | some c =>
      cases hw : st.versionFile with
      | none =>
          rw [show is_update_needed st v none = (true, st, []) from by
            simp [is_update_needed, hb, hw, checkDigest]] at h
          simp at h
      | some w =>
          by_cases ht : pyStrip w = v
          · refine ⟨?_, c, w, rfl, rfl, ht⟩
            simp [is_update_needed, hb, hw, ht]
          · rw [show is_update_needed st v none = (true, st, []) from by
              simp [is_update_needed, hb, hw, ht, checkDigest]] at h
            simp at h

theorem download_ok_inv (env : InstallEnv) (st : FS) (fetch : Option (List Nat))
    (v : String) (expected : Option String)
    (h : (download_and_install env st fetch v expected).1 = Res.ok ()) :
    (download_and_install env st fetch v expected).2.1.versionFile = some v ∧
    (download_and_install env st fetch v expected).2.1.binary ≠ none := by
  obtain ⟨mk, mv, ch, wr, dk⟩ := env
  cases fetch with
  | none => simp [download_and_install] at h
  | some bytes =>
      cases expected with
      | none =>
          cases mk <;> cases mv <;> cases ch <;> cases wr <;>
            simp_all [download_and_install, installFiles]
      | some e =>
          by_cases hd : sha256hex bytes = e
          · cases mk <;> cases mv <;> cases ch <;> cases wr <;>
              simp_all [download_and_install, installFiles, hd]
          · simp [download_and_install, hd] at h

/-- C4 counterexample: a resolver version label with surrounding
whitespace.  The first run installs it successfully (the move event fires
and the run ends ok), but the second run with the identical resolver
response downloads the binary again: the version file stores the label
verbatim while the fast path compares its stripped form, so the
short-circuit misses and the claimed idempotence fails. -/
theorem c4_whitespace_cex :
    (mainRun ⟨true, true, true, true, true⟩ ⟨some "u", some " 1", none⟩ (some [])
        ⟨none, none, false, false⟩).1 = Res.ok () ∧
    Ev.moveEv ∈ (mainRun ⟨true, true, true, true, true⟩ ⟨some "u", some " 1", none⟩ (some [])
        ⟨none, none, false, false⟩).2.2 ∧
    Ev.fetchBinary ∈ (mainRun ⟨true, true, true, true, true⟩ ⟨some "u", some " 1", none⟩
        (some [])
        (mainRun ⟨true, true, true, true, true⟩ ⟨some "u", some " 1", none⟩ (some [])
          ⟨none, none, false, false⟩).2.1).2.2 := by
  decide

/-- C4 amended: provided the resolved version label equals its stripped
form (true of any real label), any run that ends successfully leaves a
state from which a second run with the same resolver response reaches up
to date via the version-label short-circuit: it performs only the process
guard, the metadata fetch and the launch -- zero network fetches of the
binary and zero digest computations. -/
theorem c4_idempotent (env env2 : InstallEnv) (resp : ApiResponse)
    (fetch fetch2 : Option (List Nat)) (st st1 : FS) (tr1 : List Ev)
    (hv : pyStrip (resp.version.getD "unknown") = resp.version.getD "unknown")
    (h1 : mainRun env resp fetch st = (Res.ok (), st1, tr1)) :
    mainRun env2 resp fetch2 st1 =
      (Res.ok (), st1, [Ev.pkillEv, Ev.apiFetch, Ev.launchEv]) := by
  unfold mainRun at h1 ⊢
  cases hfd : fetch_download_info resp with
  | ioError => rw [hfd] at h1; simp at h1
  | exit c => rw [hfd] at h1; simp at h1
  | ok info =>
      obtain ⟨u, v, d⟩ := info
      obtain ⟨hv2, hd⟩ := fetch_info_ok_inv resp u v d hfd
      subst hd
      rw [← hv2] at hv
      rw [hfd] at h1
      replace h1 : afterResolve env (u, v, none) fetch st = (Res.ok (), st1, tr1) := h1
      show afterResolve env2 (u, v, none) fetch2 st1 =
        (Res.ok (), st1, [Ev.pkillEv, Ev.apiFetch, Ev.launchEv])
      unfold afterResolve at h1
      cases hdec : (is_update_needed st v none).1 with
      | true =>
          cases hinst : (download_and_install env (is_update_needed st v none).2.1
              fetch v none).1 with
          | ok a =>
              cases hdk : env.desktopOk with
              | true =>
                  simp [hdec, hinst, hdk] at h1
                  obtain ⟨hst, htr⟩ := h1
                  have hinv := download_ok_inv env (is_update_needed st v none).2.1
                    fetch v none (by rw [hinst])
                  rw [hst] at hinv
                  obtain ⟨c, hc⟩ := Option.ne_none_iff_exists'.mp hinv.2
                  have hhit := is_update_needed_hit st1 v none c v hc hinv.1 hv
                  simp [afterResolve, hhit]
              | false => simp [hdec, hinst, hdk] at h1
          | ioError => simp [hdec, hinst] at h1
          | exit cc => simp [hdec, hinst] at h1
      | false =>
          simp [hdec] at h1
          obtain ⟨hst, htr⟩ := h1
          obtain ⟨hfr, c, w, hbw, hww, htw⟩ := is_update_needed_false_nodigest st v hdec
          have hst1 : st1 = st := by rw [← hst, hfr]
          subst hst1
          have hhit := is_update_needed_hit st1 v none c w hbw hww htw
          simp [afterResolve, hhit]

/-- C4 witness: a fresh install of version 1.0.0 followed by a second run
with the identical response: the second run only guards, resolves and
launches. -/
theorem c4_idempotent_witness :
    mainRun ⟨true, true, true, true, true⟩ ⟨some "u", some "1.0.0", none⟩ (some [])
        ⟨some [], some "1.0.0", true, true⟩ =
      (Res.ok (), ⟨some [], some "1.0.0", true, true⟩,
       [Ev.pkillEv, Ev.apiFetch, Ev.launchEv]) :=
  c4_idempotent ⟨true, true, true, true, true⟩ ⟨true, true, true, true, true⟩
    ⟨some "u", some "1.0.0", none⟩ (some []) (some []) ⟨none, none, false, false⟩
    ⟨some [], some "1.0.0", true, true⟩
    [Ev.pkillEv, Ev.apiFetch, Ev.fetchBinary, Ev.tempDigest, Ev.mkdirEv, Ev.moveEv,
     Ev.chmodEv, Ev.writeVersionEv, Ev.iconFetch, Ev.desktopEv, Ev.launchEv]
    (by decide) (by decide)

end CursorInstaller
